import Mathlib

/-!
Verification of the image-to-DDS converter (`image-converter-commented.py`).

The program is a PyQt GUI around a worker thread (`ConversionWorker`) that,
for each input file, re-encodes the image to a temporary PNG in the output
directory, shells out to `texconv`, and renames `temp.dds` to the input's
base name.  We embed the worker loop, the per-file conversion (file-system
effects modelled on a path→content association list, with the external
process's behaviour supplied by an oracle per file), and the controller's
dialog/startup logic, and prove the specification's claims about them.
-/

/-! ## String helpers (Python `os.path` and `str` operations) -/

/-- `pre.data.isPrefixOf s.data`: models Python `str.startswith` on code points. -/
def strStartsWith (s pre : String) : Bool :=
  pre.data.isPrefixOf s.data

/-- Models Python `str.endswith` on code points. -/
def strEndsWith (s suff : String) : Bool :=
  suff.data.isSuffixOf s.data

/-- ASCII lower-casing of one character, as Python `str.lower` does for the
ASCII extensions compared here. -/
def charLower (c : Char) : Char :=
  if 65 ≤ c.toNat && c.toNat ≤ 90 then Char.ofNat (c.toNat + 32) else c

/-- Models Python `str.lower` (ASCII range, which covers the extension
comparisons in `select_folder`). -/
def str_lower (s : String) : String :=
  String.mk (s.data.map charLower)

/-- Models `os.path.join(a, b)` (posix rules): if `b` is absolute it wins;
if `a` is empty or ends with the separator, concatenate; else insert `/`. -/
def ospath_join (a b : String) : String :=
  if strStartsWith b "/" then b
  else if a == "" || strEndsWith a "/" then a ++ b
  else a ++ "/" ++ b

/-- Models `os.path.basename(p)`: the part of `p` after the last `/`. -/
def basename (p : String) : String :=
  String.mk ((p.data.reverse.takeWhile (fun c => c != '/')).reverse)

/-- Models `os.path.splitext(name)[0]` for a `name` containing no separator
(the source always applies it to a basename): drop the extension after the
last dot, except when every character before that dot is itself a dot
(so `.bashrc` keeps its name, as in CPython). -/
def splitext_root (name : String) : String :=
  let r := name.data.reverse
  let extRev := r.takeWhile (fun c => c != '.')
  if extRev.length == r.length then name
  else
    let rootChars := name.data.take (name.data.length - extRev.length - 1)
    if rootChars.all (fun c => c == '.') then name
    else String.mk rootChars

/-! ## The texconv command line (source lines 56–65) -/

/-- Lines 56–62: `compression = "-f DXT5"` by default, overridden for the
three recognized format strings. -/
def compressionFlag (dds_format : String) : String :=
  if dds_format == "DXT1" then "-f DXT1"
  else if dds_format == "DXT3" then "-f DXT3"
  else if dds_format == "DXT5" then "-f DXT5"
  else "-f DXT5"

/-- Line 65: `cmd = f"texconv -y {compression} -o \"{self.output_dir}\" \"{temp_png}\""`
with `temp_png = os.path.join(self.output_dir, "temp.png")` (line 52). -/
def buildCmd (dds_format output_dir : String) : String :=
  "texconv -y " ++ compressionFlag dds_format ++ " -o \"" ++ output_dir
    ++ "\" \"" ++ ospath_join output_dir "temp.png" ++ "\""

/-- Lines 79–80: final output path `os.path.join(output_dir, f"{base_name}.dds")`
where `base_name = os.path.splitext(os.path.basename(input_path))[0]`. -/
def finalOutputPath (output_dir input_path : String) : String :=
  ospath_join output_dir (splitext_root (basename input_path) ++ ".dds")

/-- `needle` occurs as a contiguous substring of `hay`. -/
def strContains (hay needle : String) : Prop :=
  needle.data <:+: hay.data

/-! ## File-system model

The output directory's state is an association list from path to an abstract
content tag (`Nat`); writing a path replaces any previous entry. -/

abbrev FS := List (String × Nat)

/-- Does a file exist at path `p`? (`os.path.exists`). -/
def pathExistsFS (p : String) : FS → Bool
  | [] => false
  | e :: rest => if e.1 = p then true else pathExistsFS p rest

/-- Content stored at path `p`, if any. -/
def lookupFS (p : String) : FS → Option Nat
  | [] => none
  | e :: rest => if e.1 = p then some e.2 else lookupFS p rest

/-- Delete path `p` (`os.remove`). -/
def removeFS (p : String) : FS → FS
  | [] => []
  | e :: rest => if e.1 = p then removeFS p rest else e :: removeFS p rest

/-- Write content `c` at path `p`, replacing any existing file. -/
def writeFS (p : String) (c : Nat) (fs : FS) : FS :=
  (p, c) :: removeFS p fs

/-- `os.rename(src, dst)`: move the content at `src` to `dst` (the source
guards the call so `src` normally exists; a missing `src` leaves the state
unchanged — the raising case is handled at the call site). -/
def renameFS (src dst : String) (fs : FS) : FS :=
  match lookupFS src fs with
  | some c => writeFS dst c (removeFS src fs)
  | none => fs

/-! ## The per-file conversion oracle

What the parts outside the program (PIL decode, process launch, texconv)
do for a given input file is not decided by the source, so each input file
carries an oracle describing them. -/

/-- Outcome of the external steps for one input file:
* `decodeFail`: `Image.open`/`img.save` raises with message `msg` (before the
  temporary PNG is written);
* `launchFail`: `subprocess.Popen`/`communicate` raises with message `msg`
  (after the temporary PNG is written);
* `ranTool rc stderrMsg ddsProduced`: the process ran and exited with code
  `rc`, printed `stderrMsg` on stderr, and wrote `temp.dds` iff `ddsProduced`. -/
inductive FileOutcome where
  | decodeFail (msg : String)
  | launchFail (msg : String)
  | ranTool (rc : Int) (stderrMsg : String) (ddsProduced : Bool)
deriving DecidableEq

/-- One input file of a job: its path, the abstract content of its decoded
image, and the oracle for its external steps. -/
structure ConvInput where
  path : String
  content : Nat
  outcome : FileOutcome
deriving DecidableEq

/-- Did the external tool run and exit with code zero for this file? -/
def outcomeOk (f : ConvInput) : Bool :=
  match f.outcome with
  | FileOutcome.ranTool rc _ _ => rc == 0
  | _ => false

/-- The wrapped message (line 88) raised for a file that fails at decode,
launch, or with a non-zero exit code (line 72). -/
def failMsg (f : ConvInput) : String :=
  match f.outcome with
  | FileOutcome.decodeFail msg => "Error converting " ++ f.path ++ ": " ++ msg
  | FileOutcome.launchFail msg => "Error converting " ++ f.path ++ ": " ++ msg
  | FileOutcome.ranTool _ stderrMsg _ =>
      "Error converting " ++ f.path ++ ": Conversion failed: " ++ stderrMsg

/-- Lines 78–85 of `convert_to_dds`: rename the tool's output `temp.dds`
onto the input's base name.  If `temp.dds` exists, the final path is deleted
when it already exists, and `temp.dds` is renamed onto it; `os.rename`
raises (caught by line 87's handler and wrapped) exactly when that preceding
delete removed the source, i.e. when the final path equals `temp.dds`. -/
def renameToolOutput (output_dir : String) (inp : ConvInput) (fs3 : FS) :
    Except String Unit × FS :=
  let final_path := finalOutputPath output_dir inp.path
  let temp_dds := ospath_join output_dir "temp.dds"
  if pathExistsFS temp_dds fs3 then
    if pathExistsFS final_path fs3 then
      let fs4 := removeFS final_path fs3
      if pathExistsFS temp_dds fs4 then
        (Except.ok (), renameFS temp_dds final_path fs4)
      else
        (Except.error ("Error converting " ++ inp.path
            ++ ": [Errno 2] No such file or directory: " ++ temp_dds), fs4)
    else
      (Except.ok (), renameFS temp_dds final_path fs3)
  else
    (Except.ok (), fs3)

/-- `ConversionWorker.convert_to_dds` (lines 38–88), as a transformer of the
output directory's file system, returning `Except.error` with the wrapped
message when the body raises.  Steps, in source order: save the decoded
image as `temp.png`; build and run the texconv command; raise on non-zero
exit; delete `temp.png` if it exists; then rename the tool's output
(`renameToolOutput`, lines 78–85). -/
def convert_to_dds (output_dir dds_format : String) (fs : FS) (inp : ConvInput) :
    Except String Unit × FS :=
  match inp.outcome with
  | FileOutcome.decodeFail msg =>
      (Except.error ("Error converting " ++ inp.path ++ ": " ++ msg), fs)
  | FileOutcome.launchFail msg =>
      let temp_png := ospath_join output_dir "temp.png"
      let fs1 := writeFS temp_png inp.content fs
      (Except.error ("Error converting " ++ inp.path ++ ": " ++ msg), fs1)
  | FileOutcome.ranTool rc stderrMsg ddsProduced =>
      let temp_png := ospath_join output_dir "temp.png"
      let temp_dds := ospath_join output_dir "temp.dds"
      let fs1 := writeFS temp_png inp.content fs
      let fs2 := if ddsProduced then writeFS temp_dds inp.content fs1 else fs1
      if rc ≠ 0 then
        (Except.error ("Error converting " ++ inp.path ++ ": Conversion failed: "
            ++ stderrMsg), fs2)
      else
        let fs3 := if pathExistsFS temp_png fs2 then removeFS temp_png fs2 else fs2
        renameToolOutput output_dir inp fs3

/-! ## The worker loop (`ConversionWorker.run`, lines 90–113) -/

/-- Signals emitted by the worker thread. -/
inductive Event where
  | progress (value : Nat)
  | error (msg : String)
  | finished
deriving DecidableEq

/-- Line 107: `progress = int((i + 1) / total_files * 100)` — truncation of
the exact ratio (the double-precision evaluation is abstracted to the exact
floor). -/
def progressValue (i total : Nat) : Nat :=
  (i + 1) * 100 / total

/-- The loop of `run` from index `i`: for each file, try the conversion;
on success emit `progress`, on failure emit `error` with the raised message;
after the loop emit `finished` (line 113). -/
def runFrom (output_dir dds_format : String) (total : Nat) :
    Nat → FS → List ConvInput → List Event × FS
  | _, fs, [] => ([Event.finished], fs)
  | i, fs, f :: rest =>
      let r := convert_to_dds output_dir dds_format fs f
      let tail := runFrom output_dir dds_format total (i + 1) r.2 rest
      match r.1 with
      | Except.ok _ => (Event.progress (progressValue i total) :: tail.1, tail.2)
      | Except.error msg => (Event.error msg :: tail.1, tail.2)

/-- `ConversionWorker.run`: process the whole job. -/
def runWorker (files : List ConvInput) (output_dir dds_format : String) (fs : FS) :
    List Event × FS :=
  runFrom output_dir dds_format files.length 0 fs files

/-- The progress percentages, in emission order. -/
def progressValues (evs : List Event) : List Nat :=
  evs.filterMap fun e =>
    match e with
    | Event.progress v => some v
    | _ => none

/-- Number of `error` signals emitted. -/
def errorCount (evs : List Event) : Nat :=
  (evs.filter fun e =>
    match e with
    | Event.error _ => true
    | _ => false).length

/-- The spec's `round((i+1)/N*100)` (Python `round`: nearest, ties to even),
stated on the exact rational `num/den`.  This follows the specification's
words, for comparison with the source's truncation. -/
def specRound (num den : Nat) : Nat :=
  let q := num / den
  let r := num % den
  if 2 * r < den then q
  else if den < 2 * r then q + 1
  else if q % 2 = 0 then q else q + 1

/-! ## Controller and application startup (`ImageConverterApp`) -/

/-- Observable UI actions of the main window controller. -/
inductive AppEvent where
  | criticalDialog (title msg : String)
  | warningDialog (title msg : String)
  | infoDialog (title msg : String)
  | setProgress (value : Nat)
  | exitApp (code : Nat)
  | showWindow
  | startWorker (files : List String) (output_dir dds_format : String)
deriving DecidableEq

/-- `check_texconv` (lines 134–145): `subprocess.run(["texconv", "-help"])`
succeeds exactly when the executable is available; any exception yields
`False`. -/
def check_texconv (texconvAvailable : Bool) : Bool :=
  texconvAvailable

/-- The startup error text (lines 130–131). -/
def texconvMissingMsg : String :=
  "texconv not found. Please download it and place in the application directory."

/-- `ImageConverterApp.__init__` (lines 121–132): build the UI, then check
for texconv; on failure show one critical dialog and call `sys.exit(1)`
(the `Bool` records whether the constructor completed normally). -/
def appInit (texconvAvailable : Bool) : List AppEvent × Bool :=
  if check_texconv texconvAvailable then ([], true)
  else ([AppEvent.criticalDialog "Error" texconvMissingMsg, AppEvent.exitApp 1], false)

/-- The `__main__` block (lines 297–301): construct the window, and only if
the constructor completed (no `SystemExit`) call `window.show()`. -/
def mainProgram (texconvAvailable : Bool) : List AppEvent :=
  match appInit texconvAvailable with
  | (evs, true) => evs ++ [AppEvent.showWindow]
  | (evs, false) => evs

/-- Line 244: `file.lower().endswith(('.png', '.jpg', '.jpeg', '.svg'))`. -/
def isImageFile (file : String) : Bool :=
  let l := str_lower file
  strEndsWith l ".png" || strEndsWith l ".jpg" || strEndsWith l ".jpeg"
    || strEndsWith l ".svg"

/-- Lines 241–245: the `os.walk` collection loop.  `walk` is the sequence of
`(root, files)` pairs the traversal yields; matching files are appended as
`os.path.join(root, file)` in traversal order. -/
def collectImageFiles (walk : List (String × List String)) : List String :=
  walk.foldl
    (fun acc rd => acc ++ (rd.2.filter isImageFile).map (fun file => ospath_join rd.1 file))
    []

/-- The warning text of line 250. -/
def noImagesMsg : String :=
  "No image files found in the selected folder."

/-- `convert_files` (lines 252–278): prompt for an output directory (`none`
models cancelling the dialog, after which nothing happens); otherwise start
the worker with the file list, chosen directory and current format. -/
def convert_files (files : List String) (outputDirChoice : Option String)
    (dds_format : String) : List AppEvent :=
  match outputDirChoice with
  | none => []
  | some d => [AppEvent.startWorker files d dds_format]

/-- `select_folder` (lines 233–250) after a folder was chosen: collect image
files from the walk; if any were found start the conversion, otherwise show
the warning dialog. -/
def select_folder (walk : List (String × List String))
    (outputDirChoice : Option String) (dds_format : String) : List AppEvent :=
  let image_files := collectImageFiles walk
  if image_files.isEmpty then [AppEvent.warningDialog "Error" noImagesMsg]
  else convert_files image_files outputDirChoice dds_format

/-- `update_progress` (lines 280–283). -/
def update_progress (value : Nat) : List AppEvent :=
  [AppEvent.setProgress value]

/-- `show_error` (lines 293–295): every received error message opens a
critical dialog. -/
def show_error (msg : String) : List AppEvent :=
  [AppEvent.criticalDialog "Error" msg]

/-- `conversion_finished` (lines 285–291). -/
def conversion_finished : List AppEvent :=
  [AppEvent.infoDialog "Complete" "File conversion completed successfully."]

/-- The signal wiring of lines 271–273: each worker signal invokes the
connected slot. -/
def handleWorkerEvent : Event → List AppEvent
  | Event.progress v => update_progress v
  | Event.error m => show_error m
  | Event.finished => conversion_finished

/-- The controller's reaction to the whole worker event stream. -/
def controllerTrace (evs : List Event) : List AppEvent :=
  (evs.map handleWorkerEvent).flatten

/-- Number of critical (error) dialogs in a controller trace. -/
def criticalCount (evs : List AppEvent) : Nat :=
  (evs.filter fun e =>
    match e with
    | AppEvent.criticalDialog _ _ => true
    | _ => false).length

/-! ## Helper lemmas: the file-system model -/

theorem removeFS_eq_filter (p : String) (fs : FS) :
    removeFS p fs = fs.filter (fun e => e.1 != p) := by
  induction fs with
  | nil => rfl
  | cons e rest ih =>
    by_cases h : e.1 = p <;> simp [removeFS, h, ih, List.filter_cons]

theorem removeFS_removeFS_self (p : String) (fs : FS) :
    removeFS p (removeFS p fs) = removeFS p fs := by
  simp only [removeFS_eq_filter, List.filter_filter]
  exact List.filter_congr fun e _ => by cases h : (e.1 != p) <;> simp [h]

theorem removeFS_removeFS_comm (p q : String) (fs : FS) :
    removeFS p (removeFS q fs) = removeFS q (removeFS p fs) := by
  simp only [removeFS_eq_filter, List.filter_filter]
  exact List.filter_congr fun e _ => Bool.and_comm _ _

theorem pathExistsFS_removeFS_self (p : String) (fs : FS) :
    pathExistsFS p (removeFS p fs) = false := by
  induction fs with
  | nil => rfl
  | cons e rest ih =>
    by_cases h : e.1 = p <;> simp [removeFS, pathExistsFS, h, ih]

theorem pathExistsFS_removeFS_ne (p q : String) (h : q ≠ p) (fs : FS) :
    pathExistsFS p (removeFS q fs) = pathExistsFS p fs := by
  induction fs with
  | nil => rfl
  | cons e rest ih =>
    simp only [removeFS]
    by_cases h1 : e.1 = q
    · have h2 : ¬e.1 = p := fun hp => h (h1.symm.trans hp)
      rw [if_pos h1, ih]
      simp only [pathExistsFS, if_neg h2]
    · rw [if_neg h1]
      simp only [pathExistsFS, ih]

theorem lookupFS_removeFS_self (p : String) (fs : FS) :
    lookupFS p (removeFS p fs) = none := by
  induction fs with
  | nil => rfl
  | cons e rest ih =>
    by_cases h : e.1 = p <;> simp [removeFS, lookupFS, h, ih]

theorem lookupFS_removeFS_ne (p q : String) (h : q ≠ p) (fs : FS) :
    lookupFS p (removeFS q fs) = lookupFS p fs := by
  induction fs with
  | nil => rfl
  | cons e rest ih =>
    simp only [removeFS]
    by_cases h1 : e.1 = q
    · have h2 : ¬e.1 = p := fun hp => h (h1.symm.trans hp)
      rw [if_pos h1, ih]
      simp only [lookupFS, if_neg h2]
    · rw [if_neg h1]
      simp only [lookupFS, ih]

theorem pathExistsFS_writeFS_self (p : String) (c : Nat) (fs : FS) :
    pathExistsFS p (writeFS p c fs) = true := by
  simp [writeFS, pathExistsFS]

theorem pathExistsFS_writeFS_ne (p q : String) (h : q ≠ p) (c : Nat) (fs : FS) :
    pathExistsFS p (writeFS q c fs) = pathExistsFS p fs := by
  simp [writeFS, pathExistsFS, h, pathExistsFS_removeFS_ne p q h fs]

theorem lookupFS_writeFS_self (p : String) (c : Nat) (fs : FS) :
    lookupFS p (writeFS p c fs) = some c := by
  simp [writeFS, lookupFS]

theorem lookupFS_writeFS_ne (p q : String) (h : q ≠ p) (c : Nat) (fs : FS) :
    lookupFS p (writeFS q c fs) = lookupFS p fs := by
  simp [writeFS, lookupFS, h, lookupFS_removeFS_ne p q h fs]

theorem removeFS_writeFS_self (p : String) (c : Nat) (fs : FS) :
    removeFS p (writeFS p c fs) = removeFS p fs := by
  simp [writeFS, removeFS, removeFS_removeFS_self]

theorem removeFS_writeFS_ne (p q : String) (hqp : q ≠ p) (c : Nat) (fs : FS) :
    removeFS p (writeFS q c fs) = writeFS q c (removeFS p fs) := by
  have h : ¬q = p := hqp
  simp [writeFS, removeFS, h, removeFS_removeFS_comm]

theorem writeFS_removeFS_self (p : String) (c : Nat) (fs : FS) :
    writeFS p c (removeFS p fs) = writeFS p c fs := by
  simp [writeFS, removeFS_removeFS_self]

theorem pathExistsFS_eq_isSome (p : String) (fs : FS) :
    pathExistsFS p fs = (lookupFS p fs).isSome := by
  induction fs with
  | nil => rfl
  | cons e rest ih =>
    by_cases h : e.1 = p <;> simp [pathExistsFS, lookupFS, h, ih]

/-! ## Helper lemmas: strings and paths -/

theorem string_append_left_inj (a : String) {x y : String} (h : a ++ x = a ++ y) :
    x = y := by
  apply String.ext
  have := congrArg String.data h
  simp only [String.data_append] at this
  exact List.append_cancel_left this

theorem string_append_right_inj (s : String) {x y : String} (h : x ++ s = y ++ s) :
    x = y := by
  apply String.ext
  have := congrArg String.data h
  simp only [String.data_append] at this
  exact (List.append_inj' this rfl).1

theorem ospath_join_ne (a : String) {x y : String}
    (hx : strStartsWith x "/" = false) (hy : strStartsWith y "/" = false)
    (hxy : x ≠ y) : ospath_join a x ≠ ospath_join a y := by
  unfold ospath_join
  rw [hx, hy]
  by_cases h : (a == "" || strEndsWith a "/") = true
  · simp only [Bool.false_eq_true, if_false, h, if_true]
    intro hc
    exact hxy (string_append_left_inj a hc)
  · simp only [Bool.false_eq_true, if_false, h]
    intro hc
    exact hxy (string_append_left_inj (a ++ "/") hc)

/-- The last character of a string, used to separate names with different
extensions. -/
def lastChar (s : String) : Option Char :=
  s.data.getLast?

theorem lastChar_append (b s : String) (h : s.data ≠ []) :
    lastChar (b ++ s) = lastChar s := by
  unfold lastChar
  rw [String.data_append, List.getLast?_append]
  cases hs : s.data.getLast? with
  | none => exact absurd (List.getLast?_eq_none_iff.mp hs) h
  | some c => rfl

theorem append_dds_ne_temp_png (b : String) : b ++ ".dds" ≠ "temp.png" := by
  intro h
  have h1 : lastChar (b ++ ".dds") = some 's' := by
    rw [lastChar_append b ".dds" (by decide)]; decide
  rw [h] at h1
  have h2 : lastChar "temp.png" = some 'g' := by decide
  rw [h1] at h2
  exact Option.noConfusion h2 (fun hc => Char.noConfusion hc (by decide))

theorem append_dds_eq_temp_dds (b : String) (h : b ++ ".dds" = "temp.dds") :
    b = "temp" := by
  have : b ++ ".dds" = "temp" ++ ".dds" := by rw [h]; decide
  exact string_append_right_inj ".dds" this

theorem basename_no_slash (p : String) : ∀ c ∈ (basename p).data, c ≠ '/' := by
  intro c hc
  have hmem : c ∈ p.data.reverse.takeWhile (fun ch => ch != '/') := by
    have : (basename p).data = (p.data.reverse.takeWhile (fun ch => ch != '/')).reverse := rfl
    rw [this, List.mem_reverse] at hc
    exact hc
  have := List.mem_takeWhile_imp hmem
  simpa using this

theorem splitext_root_subset (name : String) :
    ∀ c ∈ (splitext_root name).data, c ∈ name.data := by
  intro c hc
  unfold splitext_root at hc
  dsimp only at hc
  split at hc
  · exact hc
  · split at hc
    · exact hc
    · exact List.take_subset _ _ hc

theorem strStartsWith_slash_false (x : String) (h : ∀ c ∈ x.data, c ≠ '/')
    (s : String) (hs : strStartsWith s "/" = false) :
    strStartsWith (x ++ s) "/" = false := by
  unfold strStartsWith at *
  rw [String.data_append]
  cases hx : x.data with
  | nil => simpa using hs
  | cons c cs =>
    have hcne : c ≠ '/' := h c (by rw [hx]; exact List.mem_cons_self c cs)
    have hd : ("/".data : List Char) = ['/'] := rfl
    rw [hd]
    have hb : ('/' == c) = false := beq_eq_false_iff_ne.mpr (Ne.symm hcne)
    simp [List.cons_append, List.isPrefixOf, hb]

theorem base_dds_no_leading_slash (p : String) :
    strStartsWith (splitext_root (basename p) ++ ".dds") "/" = false :=
  strStartsWith_slash_false _
    (fun c hc => basename_no_slash p c (splitext_root_subset (basename p) c hc))
    ".dds" (by decide)

theorem temp_dds_ne_temp_png (d : String) :
    ospath_join d "temp.dds" ≠ ospath_join d "temp.png" :=
  ospath_join_ne d (by decide) (by decide) (by decide)

theorem finalOutputPath_ne_temp_png (d p : String) :
    finalOutputPath d p ≠ ospath_join d "temp.png" :=
  ospath_join_ne d (base_dds_no_leading_slash p) (by decide) (append_dds_ne_temp_png _)

theorem finalOutputPath_ne_temp_dds (d p : String)
    (h : splitext_root (basename p) ≠ "temp") :
    finalOutputPath d p ≠ ospath_join d "temp.dds" :=
  ospath_join_ne d (base_dds_no_leading_slash p) (by decide)
    (fun hc => h (append_dds_eq_temp_dds _ hc))

theorem pathExistsFS_false_removeFS (p q : String) (fs : FS)
    (h : pathExistsFS p fs = false) : pathExistsFS p (removeFS q fs) = false := by
  by_cases hq : q = p
  · subst hq; exact pathExistsFS_removeFS_self q fs
  · rw [pathExistsFS_removeFS_ne p q hq, h]

theorem pathExistsFS_false_renameFS (p src dst : String) (fs : FS)
    (hdst : dst ≠ p) (h : pathExistsFS p fs = false) :
    pathExistsFS p (renameFS src dst fs) = false := by
  unfold renameFS
  cases hl : lookupFS src fs with
  | none => exact h
  | some c =>
    rw [pathExistsFS_writeFS_ne p dst hdst]
    exact pathExistsFS_false_removeFS p src fs h

/-! ## Per-file behaviour of `convert_to_dds` -/

theorem convert_to_dds_fst_error (d fmt : String) (fs : FS) (f : ConvInput)
    (h : outcomeOk f = false) :
    (convert_to_dds d fmt fs f).1 = Except.error (failMsg f) := by
  cases f with
  | mk p c o =>
    cases o with
    | decodeFail m => simp [convert_to_dds, failMsg]
    | launchFail m => simp [convert_to_dds, failMsg]
    | ranTool rc m dp =>
      have hrc : ¬rc = 0 := by simpa [outcomeOk] using h
      simp [convert_to_dds, failMsg, hrc]

theorem renameToolOutput_no_temp_png (d : String) (inp : ConvInput) (fs3 : FS)
    (h : pathExistsFS (ospath_join d "temp.png") fs3 = false) :
    pathExistsFS (ospath_join d "temp.png") (renameToolOutput d inp fs3).2 = false := by
  have hfp : finalOutputPath d inp.path ≠ ospath_join d "temp.png" :=
    finalOutputPath_ne_temp_png d inp.path
  unfold renameToolOutput
  dsimp only
  split
  · split
    · split
      · exact pathExistsFS_false_renameFS _ _ _ _ hfp
          (pathExistsFS_false_removeFS _ _ _ h)
      · exact pathExistsFS_false_removeFS _ _ _ h
    · exact pathExistsFS_false_renameFS _ _ _ _ hfp h
  · exact h

theorem convert_to_dds_ok_no_temp_png (d fmt : String) (fs : FS) (f : ConvInput)
    (hok : outcomeOk f = true) :
    pathExistsFS (ospath_join d "temp.png") (convert_to_dds d fmt fs f).2 = false := by
  cases f with
  | mk p c o =>
    cases o with
    | decodeFail m => simp [outcomeOk] at hok
    | launchFail m => simp [outcomeOk] at hok
    | ranTool rc m dp =>
      have hrc : rc = 0 := by simpa [outcomeOk] using hok
      subst hrc
      have h1 : ospath_join d "temp.dds" ≠ ospath_join d "temp.png" :=
        temp_dds_ne_temp_png d
      unfold convert_to_dds
      dsimp only
      rw [if_neg (fun h : (0 : Int) ≠ 0 => h rfl)]
      cases dp with
      | false =>
        rw [if_neg (Bool.false_ne_true), if_pos (pathExistsFS_writeFS_self _ _ _)]
        exact renameToolOutput_no_temp_png d _ _
          (by rw [removeFS_writeFS_self, pathExistsFS_removeFS_self])
      | true =>
        rw [if_pos rfl,
          if_pos (by rw [pathExistsFS_writeFS_ne _ _ h1, pathExistsFS_writeFS_self])]
        exact renameToolOutput_no_temp_png d _ _
          (by rw [removeFS_writeFS_ne _ _ h1, removeFS_writeFS_self,
                pathExistsFS_writeFS_ne _ _ h1, pathExistsFS_removeFS_self])

theorem renameToolOutput_write_dds (d : String) (inp : ConvInput) (c : Nat) (X : FS)
    (hb : splitext_root (basename inp.path) ≠ "temp") :
    renameToolOutput d inp (writeFS (ospath_join d "temp.dds") c X)
      = (Except.ok (), writeFS (finalOutputPath d inp.path) c
          (removeFS (ospath_join d "temp.dds") X)) := by
  have h3 : finalOutputPath d inp.path ≠ ospath_join d "temp.dds" :=
    finalOutputPath_ne_temp_dds d inp.path hb
  have h3s : ospath_join d "temp.dds" ≠ finalOutputPath d inp.path := Ne.symm h3
  unfold renameToolOutput
  dsimp only
  rw [if_pos (pathExistsFS_writeFS_self _ _ _),
    pathExistsFS_writeFS_ne _ _ h3s]
  by_cases hfp : pathExistsFS (finalOutputPath d inp.path) X = true
  · rw [if_pos hfp, removeFS_writeFS_ne _ _ h3s,
      if_pos (pathExistsFS_writeFS_self _ _ _)]
    unfold renameFS
    rw [lookupFS_writeFS_self]
    dsimp only
    rw [removeFS_writeFS_self, removeFS_removeFS_comm, writeFS_removeFS_self]
  · rw [if_neg hfp]
    unfold renameFS
    rw [lookupFS_writeFS_self]
    dsimp only
    rw [removeFS_writeFS_self]

theorem convert_to_dds_ok_dds (d fmt p : String) (c : Nat) (m : String) (fs : FS)
    (hb : splitext_root (basename p) ≠ "temp") :
    convert_to_dds d fmt fs ⟨p, c, FileOutcome.ranTool 0 m true⟩
      = (Except.ok (), writeFS (finalOutputPath d p) c
          (removeFS (ospath_join d "temp.dds")
            (removeFS (ospath_join d "temp.png") fs))) := by
  have h1 : ospath_join d "temp.dds" ≠ ospath_join d "temp.png" :=
    temp_dds_ne_temp_png d
  unfold convert_to_dds
  dsimp only
  rw [if_neg (fun h : (0 : Int) ≠ 0 => h rfl), if_pos rfl,
    if_pos (by rw [pathExistsFS_writeFS_ne _ _ h1, pathExistsFS_writeFS_self]),
    removeFS_writeFS_ne _ _ h1, removeFS_writeFS_self]
  exact renameToolOutput_write_dds d ⟨p, c, FileOutcome.ranTool 0 m true⟩ c
    (removeFS (ospath_join d "temp.png") fs) hb

/-! ## Structure of the worker's event stream -/

theorem runFrom_cons_ok (d fmt : String) (total i : Nat) (fs : FS)
    (f : ConvInput) (rest : List ConvInput)
    (hc : (convert_to_dds d fmt fs f).1 = Except.ok ()) :
    runFrom d fmt total i fs (f :: rest)
      = (Event.progress (progressValue i total)
            :: (runFrom d fmt total (i + 1) (convert_to_dds d fmt fs f).2 rest).1,
         (runFrom d fmt total (i + 1) (convert_to_dds d fmt fs f).2 rest).2) := by
  rw [runFrom]
  rw [hc]

theorem runFrom_cons_error (d fmt : String) (total i : Nat) (fs : FS)
    (f : ConvInput) (rest : List ConvInput) (m : String)
    (hc : (convert_to_dds d fmt fs f).1 = Except.error m) :
    runFrom d fmt total i fs (f :: rest)
      = (Event.error m
            :: (runFrom d fmt total (i + 1) (convert_to_dds d fmt fs f).2 rest).1,
         (runFrom d fmt total (i + 1) (convert_to_dds d fmt fs f).2 rest).2) := by
  rw [runFrom]
  rw [hc]

theorem runFrom_length (d fmt : String) (total : Nat) :
    ∀ (l : List ConvInput) (i : Nat) (fs : FS),
    (runFrom d fmt total i fs l).1.length = l.length + 1 := by
  intro l
  induction l with
  | nil => intro i fs; rfl
  | cons f rest ih =>
    intro i fs
    cases hc : (convert_to_dds d fmt fs f).1 with
    | ok v =>
      cases v
      rw [runFrom_cons_ok d fmt total i fs f rest hc]
      simp [ih]
    | error m =>
      rw [runFrom_cons_error d fmt total i fs f rest m hc]
      simp [ih]

theorem runFrom_events_concat (d fmt : String) (total : Nat) :
    ∀ (l : List ConvInput) (i : Nat) (fs : FS), ∃ body : List Event,
    (runFrom d fmt total i fs l).1 = body ++ [Event.finished] := by
  intro l
  induction l with
  | nil => intro i fs; exact ⟨[], rfl⟩
  | cons f rest ih =>
    intro i fs
    obtain ⟨body, hb⟩ := ih (i + 1) (convert_to_dds d fmt fs f).2
    cases hc : (convert_to_dds d fmt fs f).1 with
    | ok v =>
      cases v
      exact ⟨Event.progress (progressValue i total) :: body, by
        rw [runFrom_cons_ok d fmt total i fs f rest hc]; simp [hb]⟩
    | error m =>
      exact ⟨Event.error m :: body, by
        rw [runFrom_cons_error d fmt total i fs f rest m hc]; simp [hb]⟩

theorem runFrom_getLast (d fmt : String) (total : Nat)
    (l : List ConvInput) (i : Nat) (fs : FS) :
    (runFrom d fmt total i fs l).1.getLast? = some Event.finished := by
  obtain ⟨body, hb⟩ := runFrom_events_concat d fmt total l i fs
  rw [hb, List.getLast?_concat]

theorem runFrom_fs (d fmt : String) (total : Nat) :
    ∀ (l : List ConvInput) (i : Nat) (fs : FS),
    (runFrom d fmt total i fs l).2
      = l.foldl (fun a f => (convert_to_dds d fmt a f).2) fs := by
  intro l
  induction l with
  | nil => intro i fs; rfl
  | cons f rest ih =>
    intro i fs
    cases hc : (convert_to_dds d fmt fs f).1 with
    | ok v =>
      cases v
      rw [runFrom_cons_ok d fmt total i fs f rest hc]
      simp [ih]
    | error m =>
      rw [runFrom_cons_error d fmt total i fs f rest m hc]
      simp [ih]

theorem runFrom_get_error (d fmt : String) (total : Nat) :
    ∀ (l : List ConvInput) (i : Nat) (fs : FS) (j : Nat) (h : j < l.length),
      outcomeOk (l.get ⟨j, h⟩) = false →
      (runFrom d fmt total i fs l).1[j]?
        = some (Event.error (failMsg (l.get ⟨j, h⟩))) := by
  intro l
  induction l with
  | nil => intro i fs j h; exact absurd h (Nat.not_lt_zero j)
  | cons f rest ih =>
    intro i fs j h hfail
    cases j with
    | zero =>
      have herr := convert_to_dds_fst_error d fmt fs f hfail
      rw [runFrom_cons_error d fmt total i fs f rest (failMsg f) herr]
      simp
    | succ j =>
      cases hc : (convert_to_dds d fmt fs f).1 with
      | ok v =>
        cases v
        rw [runFrom_cons_ok d fmt total i fs f rest hc]
        dsimp only
        rw [List.getElem?_cons_succ]
        exact ih (i + 1) _ j (Nat.lt_of_succ_lt_succ h) hfail
      | error m =>
        rw [runFrom_cons_error d fmt total i fs f rest m hc]
        dsimp only
        rw [List.getElem?_cons_succ]
        exact ih (i + 1) _ j (Nat.lt_of_succ_lt_succ h) hfail

theorem runFrom_get_dichotomy (d fmt : String) (total : Nat) :
    ∀ (l : List ConvInput) (i : Nat) (fs : FS) (j : Nat), j < l.length →
      (runFrom d fmt total i fs l).1[j]?
          = some (Event.progress (progressValue (i + j) total))
      ∨ ∃ m, (runFrom d fmt total i fs l).1[j]? = some (Event.error m) := by
  intro l
  induction l with
  | nil => intro i fs j h; exact absurd h (Nat.not_lt_zero j)
  | cons f rest ih =>
    intro i fs j h
    cases j with
    | zero =>
      cases hc : (convert_to_dds d fmt fs f).1 with
      | ok v =>
        cases v
        left
        rw [runFrom_cons_ok d fmt total i fs f rest hc]
        simp
      | error m =>
        right
        exact ⟨m, by rw [runFrom_cons_error d fmt total i fs f rest m hc]; simp⟩
    | succ j =>
      have hj : j < rest.length := Nat.lt_of_succ_lt_succ h
      have hadd : i + 1 + j = i + (j + 1) := by omega
      cases hc : (convert_to_dds d fmt fs f).1 with
      | ok v =>
        cases v
        rw [runFrom_cons_ok d fmt total i fs f rest hc]
        dsimp only
        rcases ih (i + 1) (convert_to_dds d fmt fs f).2 j hj with hp | ⟨m, hm⟩
        · left; rw [List.getElem?_cons_succ, hp, hadd]
        · right; exact ⟨m, by rw [List.getElem?_cons_succ, hm]⟩
      | error m0 =>
        rw [runFrom_cons_error d fmt total i fs f rest m0 hc]
        dsimp only
        rcases ih (i + 1) (convert_to_dds d fmt fs f).2 j hj with hp | ⟨m, hm⟩
        · left; rw [List.getElem?_cons_succ, hp, hadd]
        · right; exact ⟨m, by rw [List.getElem?_cons_succ, hm]⟩

theorem runFrom_progress_of_no_error (d fmt : String) (total : Nat) :
    ∀ (l : List ConvInput) (i : Nat) (fs : FS),
      errorCount (runFrom d fmt total i fs l).1 = 0 →
      progressValues (runFrom d fmt total i fs l).1
        = (List.range l.length).map (fun j => progressValue (i + j) total) := by
  intro l
  induction l with
  | nil => intro i fs h; rfl
  | cons f rest ih =>
    intro i fs h
    cases hc : (convert_to_dds d fmt fs f).1 with
    | error m =>
      rw [runFrom_cons_error d fmt total i fs f rest m hc] at h
      simp [errorCount] at h
    | ok v =>
      cases v
      rw [runFrom_cons_ok d fmt total i fs f rest hc] at h ⊢
      have htail : errorCount
          (runFrom d fmt total (i + 1) (convert_to_dds d fmt fs f).2 rest).1 = 0 := by
        simpa [errorCount] using h
      have := ih (i + 1) (convert_to_dds d fmt fs f).2 htail
      simp only [progressValues, List.filterMap_cons] at *
      rw [this, List.length_cons, List.range_succ_eq_map, List.map_cons, List.map_map]
      refine congrArg₂ List.cons (by rw [Nat.add_zero]) ?_
      exact List.map_congr_left fun j hj => congrArg (fun n => progressValue n total)
        (by omega)

/-! ## Controller lemmas and string-containment helpers -/

theorem criticalCount_controllerTrace (evs : List Event) :
    criticalCount (controllerTrace evs) = errorCount evs := by
  induction evs with
  | nil => rfl
  | cons e rest ih =>
    cases e <;>
      simp [controllerTrace, criticalCount, errorCount, handleWorkerEvent,
        update_progress, show_error, conversion_finished, List.filter_append,
        List.filter_cons] <;>
      simpa [controllerTrace, criticalCount, errorCount] using ih

theorem strContains_of_parts (pre needle post hay : String)
    (h : pre ++ needle ++ post = hay) : strContains hay needle := by
  refine ⟨pre.data, post.data, ?_⟩
  have hd := congrArg String.data h
  simpa [String.data_append] using hd

theorem failMsg_contains_path (f : ConvInput) :
    strContains (failMsg f) f.path := by
  cases f with
  | mk p c o =>
    cases o with
    | decodeFail m =>
      exact strContains_of_parts "Error converting " p (": " ++ m) _
        (by apply String.ext; simp [String.data_append, failMsg])
    | launchFail m =>
      exact strContains_of_parts "Error converting " p (": " ++ m) _
        (by apply String.ext; simp [String.data_append, failMsg])
    | ranTool rc m dp =>
      exact strContains_of_parts "Error converting " p (": Conversion failed: " ++ m) _
        (by apply String.ext; simp [String.data_append, failMsg])

theorem collectImageFiles_nil (walk : List (String × List String))
    (h : ∀ rd ∈ walk, ∀ file ∈ rd.2, isImageFile file = false) :
    collectImageFiles walk = [] := by
  have aux : ∀ (w : List (String × List String)),
      (∀ rd ∈ w, ∀ file ∈ rd.2, isImageFile file = false) →
      ∀ acc : List String,
        w.foldl (fun acc rd =>
          acc ++ (rd.2.filter isImageFile).map (fun file => ospath_join rd.1 file)) acc
        = acc := by
    intro w
    induction w with
    | nil => intro _ acc; rfl
    | cons rd rest ih =>
      intro hw acc
      have hfilter : rd.2.filter isImageFile = [] :=
        List.filter_eq_nil_iff.mpr
          (fun a ha => by simp [hw rd (List.mem_cons_self rd rest) a ha])
      simp only [List.foldl_cons, hfilter, List.map_nil, List.append_nil]
      exact ih (fun r hr f hf => hw r (List.mem_cons_of_mem rd hr) f hf) acc
  exact aux walk h []

/-! ## The claims -/

/-- C6: if the external conversion tool is absent when the application
launches, exactly one error dialog is displayed and the application exits
(code 1), and its main window is never shown. -/
theorem texconv_missing_startup :
    mainProgram false
      = [AppEvent.criticalDialog "Error" texconvMissingMsg, AppEvent.exitApp 1]
    ∧ criticalCount (mainProgram false) = 1
    ∧ AppEvent.showWindow ∉ mainProgram false := by
  decide

/-- C7: selecting a folder whose traversal yields no file with a recognized
image extension produces exactly the warning dialog and never starts a
worker, whatever the output-directory choice and format are. -/
theorem folder_without_images_warns (walk : List (String × List String))
    (choice : Option String) (fmt : String)
    (h : ∀ rd ∈ walk, ∀ file ∈ rd.2, isImageFile file = false) :
    select_folder walk choice fmt = [AppEvent.warningDialog "Error" noImagesMsg]
    ∧ ∀ fls dir dfmt, AppEvent.startWorker fls dir dfmt ∉ select_folder walk choice fmt := by
  have hempty := collectImageFiles_nil walk h
  constructor
  · simp [select_folder, hempty]
  · intro fls dir dfmt
    simp [select_folder, hempty]

theorem folder_without_images_warns_witness :
    (∀ rd ∈ [("/pics", ["notes.txt", "readme.md"])], ∀ file ∈ rd.2,
        isImageFile file = false)
    ∧ select_folder [("/pics", ["notes.txt", "readme.md"])] (some "/out") "DXT1"
        = [AppEvent.warningDialog "Error" noImagesMsg] :=
  ⟨by decide,
    (folder_without_images_warns [("/pics", ["notes.txt", "readme.md"])]
      (some "/out") "DXT1" (by decide)).1⟩

/-- C8 (counterexample): with two failing files, the controller opens two
modal error dialogs, not only one for the first reported error. -/
theorem every_error_opens_dialog_counterexample :
    errorCount (runWorker
        [⟨"/in/a.png", 1, FileOutcome.decodeFail "cannot identify image file"⟩,
         ⟨"/in/b.png", 2, FileOutcome.decodeFail "cannot identify image file"⟩]
        "/out" "DXT5" []).1 = 2
    ∧ criticalCount (controllerTrace (runWorker
        [⟨"/in/a.png", 1, FileOutcome.decodeFail "cannot identify image file"⟩,
         ⟨"/in/b.png", 2, FileOutcome.decodeFail "cannot identify image file"⟩]
        "/out" "DXT5" []).1) = 2 := by
  decide

/-- C8 (amended): errors are not aggregated — every reported error opens its
own modal dialog (one critical dialog per error signal) — and processing
continues regardless: every file is processed (one signal per file) and the
job always ends with the completion signal. -/
theorem every_error_opens_dialog (files : List ConvInput) (d fmt : String) (fs : FS) :
    criticalCount (controllerTrace (runWorker files d fmt fs).1)
      = errorCount (runWorker files d fmt fs).1
    ∧ (runWorker files d fmt fs).1.length = files.length + 1
    ∧ (runWorker files d fmt fs).1.getLast? = some Event.finished :=
  ⟨criticalCount_controllerTrace _,
    runFrom_length d fmt files.length files 0 fs,
    runFrom_getLast d fmt files.length files 0 fs⟩

/-- C5 (counterexample): a file that reaches the tool but gets a non-zero
exit code leaves the intermediate bitmap `temp.png` in the output directory
after the job completes. -/
theorem temp_bitmap_left_counterexample :
    pathExistsFS (ospath_join "/out" "temp.png")
      (runWorker [⟨"/in/a.png", 1, FileOutcome.ranTool 1 "unsupported" false⟩]
        "/out" "DXT5" []).2 = true := by
  decide

/-- C5 (amended): after any file whose external-tool invocation succeeds
(exit code zero) the intermediate bitmap is gone, whatever the prior state;
hence after a job whose last file's invocation succeeded no intermediate
bitmap remains.  (A file failing at the tool stage leaves `temp.png`
behind, as the counterexample shows.) -/
theorem temp_bitmap_removed_on_success (files : List ConvInput) (f : ConvInput)
    (d fmt : String) (fs0 : FS) (hok : outcomeOk f = true) :
    (∀ fs : FS, pathExistsFS (ospath_join d "temp.png")
        (convert_to_dds d fmt fs f).2 = false)
    ∧ pathExistsFS (ospath_join d "temp.png")
        (runWorker (files ++ [f]) d fmt fs0).2 = false := by
  refine ⟨fun fs => convert_to_dds_ok_no_temp_png d fmt fs f hok, ?_⟩
  show pathExistsFS _ (runFrom _ _ _ _ _ _).2 = false
  rw [runFrom_fs, List.foldl_append]
  simp only [List.foldl_cons, List.foldl_nil]
  exact convert_to_dds_ok_no_temp_png d fmt _ f hok

theorem temp_bitmap_removed_on_success_witness :
    outcomeOk ⟨"/in/b.jpg", 2, FileOutcome.ranTool 0 "" true⟩ = true
    ∧ pathExistsFS (ospath_join "/out" "temp.png")
        (runWorker ([⟨"/in/a.png", 1, FileOutcome.decodeFail "x"⟩]
            ++ [⟨"/in/b.jpg", 2, FileOutcome.ranTool 0 "" true⟩])
          "/out" "DXT5" []).2 = false :=
  ⟨by decide,
    (temp_bitmap_removed_on_success [⟨"/in/a.png", 1, FileOutcome.decodeFail "x"⟩]
      ⟨"/in/b.jpg", 2, FileOutcome.ranTool 0 "" true⟩ "/out" "DXT5" [] (by decide)).2⟩

/-- C2 (counterexample): a file whose conversion fails produces no progress
signal at all — the worker emits only the wrapped error and the completion
signal, so progress is not reported after every processed file. -/
theorem progress_only_on_success_counterexample :
    (runWorker [⟨"/in/a.png", 1, FileOutcome.decodeFail "broken header"⟩]
        "/out" "DXT1" []).1
      = [Event.error "Error converting /in/a.png: broken header", Event.finished]
    ∧ progressValues (runWorker
        [⟨"/in/a.png", 1, FileOutcome.decodeFail "broken header"⟩]
        "/out" "DXT1" []).1 = [] := by
  decide

/-- C2 (amended): for every job and every file position, the signal emitted
after processing that file is either the progress value
`int((index+1)/total*100)` (when the conversion succeeded) or an error
signal (when it failed) — so the truncated percentage is reported exactly
for the files that convert successfully. -/
theorem progress_truncated_per_file (files : List ConvInput) (d fmt : String)
    (fs : FS) (j : Nat) (h : j < files.length) :
    (runWorker files d fmt fs).1[j]?
        = some (Event.progress ((j + 1) * 100 / files.length))
    ∨ ∃ m, (runWorker files d fmt fs).1[j]? = some (Event.error m) := by
  have hd := runFrom_get_dichotomy d fmt files.length files 0 fs j h
  simpa [progressValue] using hd

theorem progress_truncated_per_file_witness :
    0 < ([⟨"/in/a.png", 1, FileOutcome.ranTool 0 "" true⟩] : List ConvInput).length
    ∧ ((runWorker [⟨"/in/a.png", 1, FileOutcome.ranTool 0 "" true⟩]
          "/out" "DXT5" []).1[0]?
        = some (Event.progress ((0 + 1) * 100
            / ([⟨"/in/a.png", 1, FileOutcome.ranTool 0 "" true⟩] : List ConvInput).length))
      ∨ ∃ m, (runWorker [⟨"/in/a.png", 1, FileOutcome.ranTool 0 "" true⟩]
          "/out" "DXT5" []).1[0]? = some (Event.error m)) :=
  ⟨by decide,
    progress_truncated_per_file [⟨"/in/a.png", 1, FileOutcome.ranTool 0 "" true⟩]
      "/out" "DXT5" [] 0 (by decide)⟩

/-- C3: every file that fails (decode failure, launch failure, or non-zero
exit code) yields exactly one error signal — the single signal at that
file's position — whose message contains the file's path; the loop
processes the whole list (one signal per file plus the final one), and the
completion signal is always emitted last. -/
theorem error_notification_per_failed_file (files : List ConvInput)
    (d fmt : String) (fs : FS) (j : Nat) (h : j < files.length)
    (hfail : outcomeOk (files.get ⟨j, h⟩) = false) :
    (runWorker files d fmt fs).1[j]?
        = some (Event.error (failMsg (files.get ⟨j, h⟩)))
    ∧ strContains (failMsg (files.get ⟨j, h⟩)) (files.get ⟨j, h⟩).path
    ∧ (runWorker files d fmt fs).1.length = files.length + 1
    ∧ (runWorker files d fmt fs).1.getLast? = some Event.finished :=
  ⟨runFrom_get_error d fmt files.length files 0 fs j h hfail,
    failMsg_contains_path _,
    runFrom_length d fmt files.length files 0 fs,
    runFrom_getLast d fmt files.length files 0 fs⟩

theorem error_notification_per_failed_file_witness :
    outcomeOk (([⟨"/in/a.png", 1, FileOutcome.decodeFail "bad"⟩] :
        List ConvInput).get ⟨0, by decide⟩) = false
    ∧ (runWorker [⟨"/in/a.png", 1, FileOutcome.decodeFail "bad"⟩]
        "/out" "DXT3" []).1[0]?
      = some (Event.error (failMsg (([⟨"/in/a.png", 1, FileOutcome.decodeFail "bad"⟩] :
          List ConvInput).get ⟨0, by decide⟩))) :=
  ⟨by decide,
    (error_notification_per_failed_file
      [⟨"/in/a.png", 1, FileOutcome.decodeFail "bad"⟩] "/out" "DXT3" [] 0
      (by decide) (by decide)).1⟩

/-- C1 (counterexample): for a three-file job that converts completely, the
emitted percentages are `[33, 66, 100]` (truncation), while the claimed
`round((i+1)/N*100)` is 67 at the second file — the code truncates instead
of rounding to nearest. -/
theorem progress_round_counterexample :
    progressValues (runWorker
        [⟨"/in/a.png", 1, FileOutcome.ranTool 0 "" true⟩,
         ⟨"/in/b.png", 2, FileOutcome.ranTool 0 "" true⟩,
         ⟨"/in/c.png", 3, FileOutcome.ranTool 0 "" true⟩]
        "/out" "DXT1" []).1 = [33, 66, 100]
    ∧ specRound ((1 + 1) * 100) 3 = 67
    ∧ (66 : Nat) ≠ 67 := by
  decide

/-- C1 (amended): for every non-empty job in which all files convert
successfully (no error signal), the worker emits exactly N progress
signals, the i-th carrying the truncated value `(i+1)*100/N` (Python
`int((i+1)/N*100)`), the sequence is non-decreasing, and the last value
is 100. -/
theorem progress_sequence_truncated (files : List ConvInput) (d fmt : String)
    (fs : FS) (hne : files ≠ [])
    (hok : errorCount (runWorker files d fmt fs).1 = 0) :
    progressValues (runWorker files d fmt fs).1
      = (List.range files.length).map (fun i => (i + 1) * 100 / files.length)
    ∧ (progressValues (runWorker files d fmt fs).1).length = files.length
    ∧ List.Pairwise (· ≤ ·) (progressValues (runWorker files d fmt fs).1)
    ∧ (progressValues (runWorker files d fmt fs).1).getLast? = some 100 := by
  have hmap := runFrom_progress_of_no_error d fmt files.length files 0 fs hok
  have hmap2 : progressValues (runWorker files d fmt fs).1
      = (List.range files.length).map (fun i => (i + 1) * 100 / files.length) := by
    rw [show progressValues (runWorker files d fmt fs).1
        = progressValues (runFrom d fmt files.length 0 fs files).1 from rfl, hmap]
    exact List.map_congr_left fun j hj => by simp [progressValue]
  refine ⟨hmap2, ?_, ?_, ?_⟩
  · rw [hmap2]; simp
  · rw [hmap2]
    refine List.Pairwise.map _ ?_ (List.pairwise_lt_range files.length)
    intro a b hab
    exact Nat.div_le_div_right (Nat.mul_le_mul_right 100 (by omega))
  · rw [hmap2]
    cases files with
    | nil => exact absurd rfl hne
    | cons f rest =>
      have hval : (rest.length + 1) * 100 / (rest.length + 1) = 100 := by
        rw [Nat.mul_comm]
        exact Nat.mul_div_cancel 100 (Nat.succ_pos rest.length)
      rw [List.length_cons, List.range_succ, List.map_append, List.map_singleton,
        List.getLast?_concat, hval]

theorem progress_sequence_truncated_witness :
    errorCount (runWorker
        [⟨"/in/a.png", 1, FileOutcome.ranTool 0 "" true⟩,
         ⟨"/in/b.png", 2, FileOutcome.ranTool 0 "" true⟩] "/out" "DXT5" []).1 = 0
    ∧ progressValues (runWorker
        [⟨"/in/a.png", 1, FileOutcome.ranTool 0 "" true⟩,
         ⟨"/in/b.png", 2, FileOutcome.ranTool 0 "" true⟩] "/out" "DXT5" []).1
      = (List.range ([⟨"/in/a.png", 1, FileOutcome.ranTool 0 "" true⟩,
          ⟨"/in/b.png", 2, FileOutcome.ranTool 0 "" true⟩] : List ConvInput).length).map
          (fun i => (i + 1) * 100
            / ([⟨"/in/a.png", 1, FileOutcome.ranTool 0 "" true⟩,
                ⟨"/in/b.png", 2, FileOutcome.ranTool 0 "" true⟩] : List ConvInput).length) :=
  ⟨by decide,
    (progress_sequence_truncated
      [⟨"/in/a.png", 1, FileOutcome.ranTool 0 "" true⟩,
       ⟨"/in/b.png", 2, FileOutcome.ranTool 0 "" true⟩] "/out" "DXT5" []
      (by decide) (by decide)).1⟩


/-- C4: for every output directory and chosen preset, the texconv command
line contains the overwrite flag `-y`, the compression flag `-f <preset>`
matching the chosen preset, the output-directory flag `-o "<dir>"`, and the
quoted intermediate bitmap path; and for input `photo.jpg` the final output
is `photo.dds` in the chosen output directory (on a successful run it is
the file present there afterwards, holding the converted content). -/
theorem texconv_invocation (d fmt : String)
    (hfmt : fmt = "DXT1" ∨ fmt = "DXT3" ∨ fmt = "DXT5") :
    strContains (buildCmd fmt d) "-y"
    ∧ strContains (buildCmd fmt d) ("-f " ++ fmt)
    ∧ strContains (buildCmd fmt d) ("-o \"" ++ d ++ "\"")
    ∧ strContains (buildCmd fmt d) ("\"" ++ ospath_join d "temp.png" ++ "\"")
    ∧ finalOutputPath d "photo.jpg" = ospath_join d "photo.dds"
    ∧ ∀ (fs : FS) (c : Nat) (m : String),
        (convert_to_dds d fmt fs ⟨"photo.jpg", c, FileOutcome.ranTool 0 m true⟩).1
          = Except.ok ()
        ∧ lookupFS (ospath_join d "photo.dds")
            (convert_to_dds d fmt fs
              ⟨"photo.jpg", c, FileOutcome.ranTool 0 m true⟩).2 = some c := by
  have hphoto : finalOutputPath d "photo.jpg" = ospath_join d "photo.dds" := by
    unfold finalOutputPath
    rw [show splitext_root (basename "photo.jpg") ++ ".dds" = "photo.dds" by decide]
  refine ⟨?_, ?_, ?_, ?_, hphoto, ?_⟩
  · exact strContains_of_parts "texconv " "-y"
      (" " ++ compressionFlag fmt ++ " -o \"" ++ d ++ "\" \""
        ++ ospath_join d "temp.png" ++ "\"") _
      (by apply String.ext
          simp only [buildCmd, String.data_append, List.append_assoc]
          rfl)
  · rcases hfmt with h | h | h <;> subst h <;>
      exact strContains_of_parts "texconv -y " _
        (" -o \"" ++ d ++ "\" \"" ++ ospath_join d "temp.png" ++ "\"") _
        (by apply String.ext
            simp only [buildCmd, String.data_append, List.append_assoc]
            rfl)
  · exact strContains_of_parts ("texconv -y " ++ compressionFlag fmt ++ " ")
      ("-o \"" ++ d ++ "\"") (" \"" ++ ospath_join d "temp.png" ++ "\"") _
      (by apply String.ext
          simp only [buildCmd, String.data_append, List.append_assoc]
          rfl)
  · exact strContains_of_parts
      ("texconv -y " ++ compressionFlag fmt ++ " -o \"" ++ d ++ "\" ")
      ("\"" ++ ospath_join d "temp.png" ++ "\"") "" _
      (by apply String.ext
          simp only [buildCmd, String.data_append, List.append_assoc,
            show ("" : String).data = ([] : List Char) from rfl, List.append_nil]
          rfl)
  · intro fs c m
    rw [convert_to_dds_ok_dds d fmt "photo.jpg" c m fs (by decide)]
    refine ⟨rfl, ?_⟩
    show lookupFS (ospath_join d "photo.dds")
        (writeFS (finalOutputPath d "photo.jpg") c
          (removeFS (ospath_join d "temp.dds")
            (removeFS (ospath_join d "temp.png") fs))) = some c
    rw [hphoto, lookupFS_writeFS_self]

theorem texconv_invocation_witness :
    ("DXT1" = "DXT1" ∨ "DXT1" = "DXT3" ∨ "DXT1" = "DXT5")
    ∧ strContains (buildCmd "DXT1" "/out") ("-f " ++ "DXT1")
    ∧ finalOutputPath "/out" "photo.jpg" = ospath_join "/out" "photo.dds" :=
  ⟨Or.inl rfl, (texconv_invocation "/out" "DXT1" (Or.inl rfl)).2.1,
    (texconv_invocation "/out" "DXT1" (Or.inl rfl)).2.2.2.2.1⟩

/-- C9: for a file converted successfully with the tool's output present,
a pre-existing `<base>.dds` in the output directory is deleted and the new
output is renamed onto that path (the final state holds the new content for
any prior state); consequently, in a job with two inputs sharing a base
name, the later file's output silently (no error signal) replaces the
earlier one's. -/
theorem duplicate_basename_overwrites (d fmt p1 p2 : String) (c1 c2 : Nat)
    (m1 m2 : String) (fs0 : FS)
    (hbase : splitext_root (basename p2) = splitext_root (basename p1))
    (hnt : splitext_root (basename p1) ≠ "temp") :
    (∀ (fs : FS), lookupFS (finalOutputPath d p1)
        (convert_to_dds d fmt fs ⟨p1, c1, FileOutcome.ranTool 0 m1 true⟩).2
        = some c1)
    ∧ lookupFS (finalOutputPath d p1)
        (runWorker [⟨p1, c1, FileOutcome.ranTool 0 m1 true⟩,
                    ⟨p2, c2, FileOutcome.ranTool 0 m2 true⟩] d fmt fs0).2 = some c2
    ∧ errorCount (runWorker [⟨p1, c1, FileOutcome.ranTool 0 m1 true⟩,
                    ⟨p2, c2, FileOutcome.ranTool 0 m2 true⟩] d fmt fs0).1 = 0 := by
  have hnt2 : splitext_root (basename p2) ≠ "temp" := by rw [hbase]; exact hnt
  have hfp : finalOutputPath d p2 = finalOutputPath d p1 := by
    unfold finalOutputPath; rw [hbase]
  refine ⟨?_, ?_, ?_⟩
  · intro fs
    rw [convert_to_dds_ok_dds d fmt p1 c1 m1 fs hnt]
    show lookupFS (finalOutputPath d p1)
      (writeFS (finalOutputPath d p1) c1
        (removeFS (ospath_join d "temp.dds")
          (removeFS (ospath_join d "temp.png") fs))) = some c1
    rw [lookupFS_writeFS_self]
  · show lookupFS _ (runFrom d fmt _ 0 fs0 _).2 = some c2
    rw [runFrom_fs]
    simp only [List.foldl_cons, List.foldl_nil]
    rw [convert_to_dds_ok_dds d fmt p1 c1 m1 fs0 hnt]
    show lookupFS (finalOutputPath d p1)
      (convert_to_dds d fmt
        (writeFS (finalOutputPath d p1) c1
          (removeFS (ospath_join d "temp.dds")
            (removeFS (ospath_join d "temp.png") fs0)))
        ⟨p2, c2, FileOutcome.ranTool 0 m2 true⟩).2 = some c2
    rw [convert_to_dds_ok_dds d fmt p2 c2 m2 _ hnt2]
    show lookupFS (finalOutputPath d p1)
      (writeFS (finalOutputPath d p2) c2 _) = some c2
    rw [hfp, lookupFS_writeFS_self]
  · have hc1 : (convert_to_dds d fmt fs0 ⟨p1, c1, FileOutcome.ranTool 0 m1 true⟩).1
        = Except.ok () := by
      rw [convert_to_dds_ok_dds d fmt p1 c1 m1 fs0 hnt]
    have hc2 : (convert_to_dds d fmt
        (convert_to_dds d fmt fs0 ⟨p1, c1, FileOutcome.ranTool 0 m1 true⟩).2
        ⟨p2, c2, FileOutcome.ranTool 0 m2 true⟩).1 = Except.ok () := by
      rw [show (convert_to_dds d fmt fs0 ⟨p1, c1, FileOutcome.ranTool 0 m1 true⟩).2
          = writeFS (finalOutputPath d p1) c1
              (removeFS (ospath_join d "temp.dds")
                (removeFS (ospath_join d "temp.png") fs0)) by
        rw [convert_to_dds_ok_dds d fmt p1 c1 m1 fs0 hnt]]
      rw [convert_to_dds_ok_dds d fmt p2 c2 m2 _ hnt2]
    show errorCount (runFrom d fmt _ 0 fs0 _).1 = 0
    rw [runFrom_cons_ok _ _ _ _ _ _ _ hc1]
    dsimp only
    rw [runFrom_cons_ok _ _ _ _ _ _ _ hc2]
    dsimp only
    simp [errorCount, runFrom]

theorem duplicate_basename_overwrites_witness :
    splitext_root (basename "other/photo.jpg") = splitext_root (basename "art/photo.png")
    ∧ lookupFS (finalOutputPath "/out" "art/photo.png")
        (runWorker [⟨"art/photo.png", 1, FileOutcome.ranTool 0 "" true⟩,
                    ⟨"other/photo.jpg", 2, FileOutcome.ranTool 0 "" true⟩]
          "/out" "DXT5" []).2 = some 2 :=
  ⟨by decide,
    (duplicate_basename_overwrites "/out" "DXT5" "art/photo.png" "other/photo.jpg"
      1 2 "" "" [] (by decide) (by decide)).2.1⟩

/-- C10: any format string other than the three recognized ones falls
through to the default, so the tool is invoked with the DXT5 compression
flag. -/
theorem unknown_format_defaults_dxt5 (d fmt : String)
    (h1 : fmt ≠ "DXT1") (h2 : fmt ≠ "DXT3") (h3 : fmt ≠ "DXT5") :
    compressionFlag fmt = "-f DXT5"
    ∧ strContains (buildCmd fmt d) "-f DXT5" := by
  have hflag : compressionFlag fmt = "-f DXT5" := by
    simp [compressionFlag, h1, h2, h3]
  refine ⟨hflag, ?_⟩
  exact strContains_of_parts "texconv -y " "-f DXT5"
    (" -o \"" ++ d ++ "\" \"" ++ ospath_join d "temp.png" ++ "\"") _
    (by apply String.ext
        simp only [buildCmd, hflag, String.data_append, List.append_assoc])

theorem unknown_format_defaults_dxt5_witness :
    ("BC7" : String) ≠ "DXT1"
    ∧ compressionFlag "BC7" = "-f DXT5"
    ∧ strContains (buildCmd "BC7" "/out") "-f DXT5" :=
  ⟨by decide,
    (unknown_format_defaults_dxt5 "/out" "BC7" (by decide) (by decide) (by decide)).1,
    (unknown_format_defaults_dxt5 "/out" "BC7" (by decide) (by decide) (by decide)).2⟩
